import Mathlib

/-!
Verification development for the `remitlend` on-chain event indexer
(`EventIndexer` in the backend services, plus the `loan_events` /
`indexer_state` migration).

The development shallowly embeds:
* the Soroban value decoders (`decodeEventType`, `decodeAddress`,
  `decodeAmount`, `decodeLoanId`),
* the per-batch decoding loop `processEvents`,
* the persistence layer (`storeEvents`, `getIndexerState`,
  `updateIndexerState`) over an explicit database state, with a failure
  oracle that can make any database query fail,
* the per-cycle orchestration `indexEvents`,
* the poll-loop controller (`start` / `stop` / `poll`) as a labelled
  transition system,
* the column definitions of the `loan_events` migration.

Machine integers of the source are modelled as `Nat` / `Int`; JavaScript
`undefined` fields become `Option`.  The pg row returned by
`getIndexerState` is modelled with its snake_case keys, so the caller's
camelCase access `state.lastIndexedLedger` reads `undefined` whenever the
row exists, and the request's start ledger `undefined + 1` is `NaN`
(modelled by `JsNum`).
-/

namespace RemitLend

/-- Model of the Soroban smart-contract values (`xdr.ScVal`) as far as the
indexer's decoders inspect them: a symbol, an address, a signed 128-bit
integer, an unsigned 32-bit integer, or anything else (opaque). -/
inductive ScVal where
  | scvSymbol (s : String)
  | scvAddress (a : String)
  | scvI128 (n : Int)
  | scvU32 (n : Nat)
  | scvOther (tag : String)
deriving DecidableEq, Repr

namespace ScVal

/-- Model of `ScVal.toXDR("base64")`: an opaque rendering of the value. -/
def toXDRbase64 : ScVal → String
  | scvSymbol s => "sym:" ++ s
  | scvAddress a => "addr:" ++ a
  | scvI128 n => "i128:" ++ toString n
  | scvU32 n => "u32:" ++ toString n
  | scvOther t => "other:" ++ t

end ScVal

/-- Model of `rpc.Api.EventResponse`: the raw event envelope returned by the
Stellar RPC `getEvents` call, restricted to the fields the indexer reads.
`contractId` is `Option` because the SDK field is optional (`!e.contractId`
guards against `undefined`). -/
structure EventResponse where
  type : String
  topic : List ScVal
  contractId : Option String
  id : String
  ledger : Nat
  ledgerClosedAt : String
  txHash : String
  value : ScVal
deriving DecidableEq, Repr

/-- Model of the `LoanEvent` interface produced by the decoder.  Optional
TypeScript fields (`loanId?`, `amount?`) become `Option`. -/
structure LoanEvent where
  eventId : String
  eventType : String
  loanId : Option Nat
  borrower : String
  amount : Option String
  ledger : Nat
  ledgerClosedAt : String
  txHash : String
  contractId : String
  topics : List String
  value : String
deriving DecidableEq, Repr

/-- `decodeEventType`: `x.sym()` succeeds only on a symbol value; the result
is kept only if it is one of the three recognised tags, else `null`
(modelled as `none`); a thrown decode error is caught and yields `null`. -/
def decodeEventType : ScVal → Option String
  | ScVal.scvSymbol s =>
      if s = "LoanRequested" ∨ s = "LoanApproved" ∨ s = "LoanRepaid" then some s
      else none
  | _ => none

/-- `decodeAddress`: `x.address().toString()` succeeds only on an address
value; a thrown decode error is caught and the empty string is returned. -/
def decodeAddress : ScVal → String
  | ScVal.scvAddress a => a
  | _ => ""

/-- `decodeAmount`: `x.i128().toString()` succeeds only on an i128 value
(rendered as its exact decimal string); a thrown decode error is caught and
the string `"0"` is returned. -/
def decodeAmount : ScVal → String
  | ScVal.scvI128 n => toString n
  | _ => "0"

/-- `decodeLoanId`: `x.u32()` succeeds only on a u32 value; a thrown decode
error is caught and `0` is returned. -/
def decodeLoanId : ScVal → Nat
  | ScVal.scvU32 n => n
  | _ => 0

/-- The body of `processEvents` for one raw event: `continue` (skip) is
`none`.  The guard `e.type !== "contract" || !e.topic?.[0] || !e.topic[1] ||
!e.contractId` skips non-contract events, events with fewer than two topics,
and events with no contract id (an `ScVal` object held in a topic slot is
always truthy, so only absence of the slot is falsy).  An unrecognised
event-type tag is skipped.  `loanId` is set only when a third topic is
present. -/
def processOne (e : EventResponse) : Option LoanEvent :=
  if e.type ≠ "contract" then none
  else match e.topic.get? 0, e.topic.get? 1, e.contractId with
    | some t0, some t1, some cid =>
      match decodeEventType t0 with
      | none => none
      | some ty =>
        some { eventId := e.id
               eventType := ty
               loanId := (e.topic.get? 2).map decodeLoanId
               borrower := decodeAddress t1
               amount := some (decodeAmount e.value)
               ledger := e.ledger
               ledgerClosedAt := e.ledgerClosedAt
               txHash := e.txHash
               contractId := cid
               topics := e.topic.map ScVal.toXDRbase64
               value := e.value.toXDRbase64 }
    | _, _, _ => none

/-- `processEvents`: decode a batch of raw events, skipping the events the
per-event guard or the event-type decoder rejects, keeping the rest in
order. -/
def processEvents (events : List EventResponse) : List LoanEvent :=
  events.filterMap processOne

/-- One row of the `indexer_state` table as node-pg returns it: the row
object's keys are the snake_case column names `last_indexed_ledger` and
`last_indexed_cursor` (the status endpoint reads these same keys from the
identical query). -/
structure IndexerStateRow where
  last_indexed_ledger : Nat
  last_indexed_cursor : Option String
deriving DecidableEq, Repr

/-- A JavaScript number as far as the request computation observes it: an
actual natural number, or `NaN` (the result of arithmetic on
`undefined`). -/
inductive JsNum where
  | num (n : Nat)
  | nan
deriving DecidableEq, Repr

/-- The object `getIndexerState` hands its caller: either the pg row
`r.rows[0]` — whose keys are the snake_case column names — or, when the
table has no row, the default literal
`{ lastIndexedLedger: 0, lastIndexedCursor: null }`, whose keys are
camelCase. -/
inductive StateObj where
  | row (r : IndexerStateRow)
  | defaultObj
deriving DecidableEq, Repr

/-- The JS property access `state.lastIndexedLedger`: defined (0) on the
default literal, but `undefined` on a pg row, whose only keys are
`last_indexed_ledger` and `last_indexed_cursor`. -/
def StateObj.lastIndexedLedgerKey : StateObj → Option Nat
  | StateObj.row _ => none
  | StateObj.defaultObj => some 0

/-- JS `x + 1` where `x` may be `undefined`: `undefined + 1` is `NaN`. -/
def jsAddOne : Option Nat → JsNum
  | some n => JsNum.num (n + 1)
  | none => JsNum.nan

/-- The database state visible to the indexer: the committed rows of
`loan_events` and the newest `indexer_state` row (`none` on a database where
the singleton row is missing). -/
structure Db where
  loanEvents : List LoanEvent
  indexerState : Option IndexerStateRow
deriving DecidableEq, Repr

/-- A failure oracle: database query number `i` of a cycle (counted in
issue order) fails iff `o i = true`.  This injects transient persistence
failures at any single statement. -/
def Oracle := Nat → Bool

/-- Whether `loan_events` (as currently visible through `rows`) holds a row
with the given `event_id`. -/
def hasEventId (rows : List LoanEvent) (id : String) : Bool :=
  rows.any (fun r => r.eventId = id)

/-- Outcome of a persistence routine: the committed database afterwards, the
next query number, and whether the routine succeeded (a thrown error is
`false`). -/
structure DbOutcome where
  db : Db
  ctr : Nat
  ok : Bool
deriving DecidableEq, Repr

/-- The insert loop of `storeEvents`, inside the open transaction.
`pending` holds the rows inserted since `BEGIN` (not yet committed);
each event costs one `SELECT` query, plus one `INSERT` query when the
`event_id` is absent from the transaction's view (committed rows plus
`pending`).  On the first failing query the codepath runs `ROLLBACK` (one
further query) and rethrows: the committed database is unchanged. -/
def storeLoop (o : Oracle) (db : Db) :
    Nat → List LoanEvent → List LoanEvent → DbOutcome
  | c, pending, [] =>
    -- COMMIT
    if o c then ⟨db, c + 2, false⟩
    else ⟨{ db with loanEvents := db.loanEvents ++ pending }, c + 1, true⟩
  | c, pending, e :: rest =>
    -- SELECT id FROM loan_events WHERE event_id = $1
    if o c then ⟨db, c + 2, false⟩
    else if hasEventId (db.loanEvents ++ pending) e.eventId then
      storeLoop o db (c + 1) pending rest
    else
      -- INSERT INTO loan_events ...
      if o (c + 1) then ⟨db, c + 3, false⟩
      else storeLoop o db (c + 2) (pending ++ [e]) rest

/-- `storeEvents`: empty input returns immediately with no query; otherwise
`BEGIN`, the insert loop, `COMMIT`; any failure triggers `ROLLBACK` and a
rethrow, leaving the committed database unchanged. -/
def storeEvents (o : Oracle) (c : Nat) (db : Db) (events : List LoanEvent) :
    DbOutcome :=
  if events.isEmpty then ⟨db, c, true⟩
  else
    -- BEGIN
    if o c then ⟨db, c + 2, false⟩
    else storeLoop o db (c + 1) [] events

/-- `getIndexerState`: one `SELECT` on `indexer_state`; `r.rows[0]` (the
raw pg row, snake_case keys) when the table has a row, otherwise the
literal default `{ lastIndexedLedger: 0, lastIndexedCursor: null }`. -/
def getIndexerState (o : Oracle) (c : Nat) (db : Db) :
    Option StateObj × Nat × Bool :=
  if o c then (none, c + 1, false)
  else
    (some (match db.indexerState with
      | some r => StateObj.row r
      | none => StateObj.defaultObj), c + 1, true)

/-- `updateIndexerState`: one auto-committed `UPDATE` of the newest
`indexer_state` row.  When no row exists the `UPDATE` matches zero rows and
succeeds without effect. -/
def updateIndexerState (o : Oracle) (c : Nat) (db : Db)
    (ledger : Nat) (cursor : String) : DbOutcome :=
  if o c then ⟨db, c + 1, false⟩
  else match db.indexerState with
    | none => ⟨db, c + 1, true⟩
    | some _ =>
      ⟨{ db with indexerState := some ⟨ledger, some cursor⟩ }, c + 1, true⟩

/-- The `getEvents` request the cycle sends to the Stellar RPC server.
`startLedger` is a JS number: `state.lastIndexedLedger + 1`, which is `NaN`
whenever `state` is a pg row (the camelCase key is absent there). -/
structure EventsRequest where
  startLedger : JsNum
  contractIds : List String
  limit : Nat
deriving DecidableEq, Repr

/-- The response of the event source: raw events plus the opaque resumption
cursor (`undefined` modelled as `none`). -/
structure SourceResult where
  events : List EventResponse
  cursor : Option String
deriving DecidableEq, Repr

/-- The part of `IndexerConfig` the cycle reads. -/
structure IndexerConfig where
  contractId : String
  pollIntervalMs : Nat
  batchSize : Nat
deriving DecidableEq, Repr

/-- Outcome of one `indexEvents` cycle: the committed database, whether the
cycle completed without a thrown error, and the `getEvents` request it
issued (`none` when the state read failed before the fetch). -/
structure CycleOutcome where
  db : Db
  ok : Bool
  req : Option EventsRequest
deriving DecidableEq, Repr

/-- One `indexEvents` cycle: read the indexer state, fetch a batch starting
at `state.lastIndexedLedger + 1` — `NaN` when the state row exists, since
the pg row carries only snake_case keys; `0 + 1` from the camelCase default
when it does not — limited to `batchSize` and filtered to the configured
contract, return early on an empty batch, decode, store the decoded events,
then update the indexer state to the ledger of the last raw event of the
batch together with the source cursor (`response.cursor || ""`).
`fetchFails` injects a transient RPC failure; `src` is the source's response
when the fetch succeeds. -/
def indexEvents (o : Oracle) (fetchFails : Bool) (src : SourceResult)
    (cfg : IndexerConfig) (db : Db) : CycleOutcome :=
  match getIndexerState o 0 db with
  | (_, _, false) => ⟨db, false, none⟩
  | (stateOpt, c, true) =>
    let state := stateOpt.getD StateObj.defaultObj
    let req : EventsRequest :=
      { startLedger := jsAddOne state.lastIndexedLedgerKey
        contractIds := [cfg.contractId]
        limit := cfg.batchSize }
    if fetchFails then ⟨db, false, some req⟩
    else if src.events.isEmpty then ⟨db, true, some req⟩
    else
      let events := processEvents src.events
      let s1 := storeEvents o c db events
      if s1.ok then
        match src.events.getLast? with
        | none => ⟨s1.db, true, some req⟩
        | some last =>
          let s2 := updateIndexerState o s1.ctr s1.db last.ledger
            (src.cursor.getD "")
          ⟨s2.db, s2.ok, some req⟩
      else ⟨s1.db, false, some req⟩

/-- Observable state of the poll-loop controller: the `isRunning` flag, the
pending `setTimeout` handle with its delay (`none` when no timer is armed),
whether an `indexEvents` cycle is in flight, and how many cycles have begun
executing (a history variable for stating liveness facts). -/
structure CtrlState where
  isRunning : Bool
  timer : Option Nat
  inCycle : Bool
  cyclesExecuted : Nat
deriving DecidableEq, Repr

/-- External events acting on the controller: a `start()` call, a `stop()`
call, the armed timer firing (running `poll`), and the in-flight cycle
returning (with or without a caught error). -/
inductive CtrlEvent where
  | startCall
  | stopCall
  | timerFire
  | cycleReturn (failed : Bool)
deriving DecidableEq, Repr

/-- Entering `poll()`: return immediately when not running, otherwise begin
an `indexEvents` cycle. -/
def pollEntry (s : CtrlState) : CtrlState :=
  if s.isRunning then
    { s with inCycle := true, cyclesExecuted := s.cyclesExecuted + 1 }
  else s

/-- One controller transition.  `start()` is a no-op while running,
otherwise sets `isRunning` and calls `poll` at once.  `stop()` clears
`isRunning` and cancels the pending timer, touching nothing else.  A firing
timer disarms itself and calls `poll`.  A returning cycle — successful or
failed alike — re-arms the timer with the configured delay. -/
def ctrlStep (cfg : IndexerConfig) (s : CtrlState) : CtrlEvent → CtrlState
  | CtrlEvent.startCall =>
    if s.isRunning then s else pollEntry { s with isRunning := true }
  | CtrlEvent.stopCall => { s with isRunning := false, timer := none }
  | CtrlEvent.timerFire =>
    match s.timer with
    | none => s
    | some _ => pollEntry { s with timer := none }
  | CtrlEvent.cycleReturn _ =>
    if s.inCycle then
      { s with inCycle := false, timer := some cfg.pollIntervalMs }
    else s

/-- The controller before `start()`: stopped, no timer, no cycle. -/
def ctrlInit : CtrlState := ⟨false, none, false, 0⟩

/-- Run the controller over a sequence of external events. -/
def runCtrl (cfg : IndexerConfig) (trace : List CtrlEvent) : CtrlState :=
  trace.foldl (ctrlStep cfg) ctrlInit

/-- One column definition of the migration
`1771691269866_loan-events-schema.js`. -/
structure ColumnDef where
  name : String
  colType : String
  notNull : Bool
  unique : Bool
deriving DecidableEq, Repr

/-- The `loan_events` table of the migration (`id: "id"` is the serial
primary-key shorthand). -/
def loanEventsColumns : List ColumnDef :=
  [ ⟨"id", "id", true, true⟩,
    ⟨"event_id", "varchar(255)", true, true⟩,
    ⟨"event_type", "varchar(50)", true, false⟩,
    ⟨"loan_id", "integer", false, false⟩,
    ⟨"borrower", "varchar(255)", true, false⟩,
    ⟨"amount", "numeric", false, false⟩,
    ⟨"ledger", "integer", true, false⟩,
    ⟨"ledger_closed_at", "timestamp", true, false⟩,
    ⟨"tx_hash", "varchar(255)", true, false⟩,
    ⟨"contract_id", "varchar(255)", true, false⟩,
    ⟨"topics", "jsonb", false, false⟩,
    ⟨"value", "text", false, false⟩,
    ⟨"created_at", "timestamp", true, false⟩ ]

/-! Concrete instances used by witnesses and counterexamples. -/

/-- Oracle on which every database query succeeds. -/
def noFail : Oracle := fun _ => false

/-- Oracle on which exactly query number 5 fails.  On a one-event cycle the
queries are numbered 0 `SELECT` state, 1 `BEGIN`, 2 `SELECT` dup-check,
3 `INSERT`, 4 `COMMIT`, 5 `UPDATE indexer_state`: query 5 is the progress
update. -/
def failAtUpdate : Oracle := fun n => n == 5

/-- A sample configuration. -/
def cfg0 : IndexerConfig := ⟨"C", 30000, 100⟩

/-- A fresh database: no events, the initial progress row of the
migration. -/
def db0 : Db := ⟨[], some ⟨0, none⟩⟩

/-- A database whose `indexer_state` table has no row at all (only then
does `getIndexerState` fall back to the camelCase default literal). -/
def dbNoRow : Db := ⟨[], none⟩

/-- A well-formed raw `LoanRequested` event at ledger 100. -/
def e1 : EventResponse :=
  { type := "contract"
    topic := [ScVal.scvSymbol "LoanRequested", ScVal.scvAddress "G1",
              ScVal.scvU32 7]
    contractId := some "C"
    id := "ev1"
    ledger := 100
    ledgerClosedAt := "t"
    txHash := "h"
    value := ScVal.scvI128 500 }

/-- A raw event whose second topic is present but is not an address. -/
def eBadAddr : EventResponse :=
  { e1 with
    topic := [ScVal.scvSymbol "LoanRequested", ScVal.scvSymbol "oops",
              ScVal.scvU32 7]
    id := "ev2", ledger := 101 }

/-- A raw event whose first topic is an unrecognised symbol: the decoder
skips it. -/
def eUnknown : EventResponse :=
  { e1 with
    topic := [ScVal.scvSymbol "SomethingElse", ScVal.scvAddress "G1"]
    id := "ev3", ledger := 103 }

/-- A raw event whose payload is not an i128 value. -/
def eNoAmount : EventResponse :=
  { e1 with value := ScVal.scvSymbol "x", id := "ev4", ledger := 104 }

/-- A raw event whose third topic is present but is not a u32 value. -/
def eBadLoanId : EventResponse :=
  { e1 with
    topic := [ScVal.scvSymbol "LoanRequested", ScVal.scvAddress "G1",
              ScVal.scvSymbol "x"]
    id := "ev5", ledger := 105 }

/-- A raw event with only two topics (no loan id). -/
def eTwoTopics : EventResponse :=
  { e1 with
    topic := [ScVal.scvSymbol "LoanRepaid", ScVal.scvAddress "G1"]
    id := "ev6", ledger := 106 }

/-- Number of `loan_events` rows carrying a given `event_id`. -/
def countEventId (rows : List LoanEvent) (id : String) : Nat :=
  rows.countP (fun r => r.eventId = id)

/-- `n` repeated single-event `storeEvents` calls on a database connection
with no transient failures (the source redelivering the same event across
cycles). -/
def storeNTimes (e : LoanEvent) (db : Db) : Nat → Db
  | 0 => db
  | n + 1 => (storeEvents noFail 0 (storeNTimes e db n) [e]).db

/-- The decoded form of `e1`. -/
def ev1 : LoanEvent :=
  { eventId := "ev1"
    eventType := "LoanRequested"
    loanId := some 7
    borrower := "G1"
    amount := some "500"
    ledger := 100
    ledgerClosedAt := "t"
    txHash := "h"
    contractId := "C"
    topics := ["sym:LoanRequested", "addr:G1", "u32:7"]
    value := "i128:500" }

/-- The decoded form of `eBadLoanId`. -/
def evBadLoan : LoanEvent :=
  { ev1 with
    eventId := "ev5"
    loanId := some 0
    ledger := 105
    topics := ["sym:LoanRequested", "addr:G1", "sym:x"] }

/-! Helper lemmas about the decoders. -/

lemma decodeAddress_of_not_address (t : ScVal) (h : ∀ a, t ≠ ScVal.scvAddress a) :
    decodeAddress t = "" := by
  cases t with
  | scvAddress a => exact absurd rfl (h a)
  | _ => rfl

lemma decodeAmount_of_not_i128 (t : ScVal) (h : ∀ n, t ≠ ScVal.scvI128 n) :
    decodeAmount t = "0" := by
  cases t with
  | scvI128 n => exact absurd rfl (h n)
  | _ => rfl

lemma decodeLoanId_of_not_u32 (t : ScVal) (h : ∀ n, t ≠ ScVal.scvU32 n) :
    decodeLoanId t = 0 := by
  cases t with
  | scvU32 n => exact absurd rfl (h n)
  | _ => rfl

/-- Shape of a successful decode: `processOne e = some ev` pins every field
of `ev` to its defining expression over `e`. -/
lemma processOne_eq_some (e : EventResponse) (ev : LoanEvent)
    (h : processOne e = some ev) :
    ∃ t0 t1 cid ty, e.topic.get? 0 = some t0 ∧ e.topic.get? 1 = some t1 ∧
      e.contractId = some cid ∧ decodeEventType t0 = some ty ∧
      ev = { eventId := e.id
             eventType := ty
             loanId := (e.topic.get? 2).map decodeLoanId
             borrower := decodeAddress t1
             amount := some (decodeAmount e.value)
             ledger := e.ledger
             ledgerClosedAt := e.ledgerClosedAt
             txHash := e.txHash
             contractId := cid
             topics := e.topic.map ScVal.toXDRbase64
             value := e.value.toXDRbase64 } := by
  unfold processOne at h
  split at h
  · exact absurd h (by simp)
  · split at h
    · rename_i t0 t1 cid h0 h1 hc
      split at h
      · exact absurd h (by simp)
      · rename_i ty hty
        exact ⟨t0, t1, cid, ty, h0, h1, hc, hty,
          (Option.some_inj.mp h).symm⟩
    · exact absurd h (by simp)

/-- C4 counterexample: `eBadAddr` has a second topic that is present but
fails to decode as an address (it is a symbol), yet the decoder does NOT
skip it — a `LoanEvent` is produced, with the empty string as borrower.
This refutes the claim that a Topic[1] decode failure is a hard failure
producing no DomainEvent. -/
theorem address_decode_failure_not_skipped_cex :
    eBadAddr.topic.get? 1 = some (ScVal.scvSymbol "oops") ∧
    (∀ a, ScVal.scvSymbol "oops" ≠ ScVal.scvAddress a) ∧
    processEvents [eBadAddr] ≠ [] ∧
    (processEvents [eBadAddr]).map LoanEvent.borrower = [""] :=
  ⟨by decide, fun a h => ScVal.noConfusion h, by decide, by decide⟩

/-- C4 amended: when Topic[1] is present but fails to decode as an address,
`decodeAddress` swallows the error and returns the empty string; the event
still produces a `LoanEvent` (with `borrower = ""`), and the remaining
events of the batch are still processed.  An event is dropped on account of
Topic[1] only when that topic is absent. -/
theorem address_decode_failure_amended (e : EventResponse)
    (rest : List EventResponse) (t0 t1 : ScVal) (cid ty : String)
    (htype : e.type = "contract") (h0 : e.topic.get? 0 = some t0)
    (h1 : e.topic.get? 1 = some t1) (hc : e.contractId = some cid)
    (hty : decodeEventType t0 = some ty)
    (haddr : ∀ a, t1 ≠ ScVal.scvAddress a) :
    ∃ ev, processOne e = some ev ∧ ev.borrower = "" ∧
      processEvents (e :: rest) = ev :: processEvents rest := by
  have hP : processOne e = some
      { eventId := e.id
        eventType := ty
        loanId := (e.topic.get? 2).map decodeLoanId
        borrower := decodeAddress t1
        amount := some (decodeAmount e.value)
        ledger := e.ledger
        ledgerClosedAt := e.ledgerClosedAt
        txHash := e.txHash
        contractId := cid
        topics := e.topic.map ScVal.toXDRbase64
        value := e.value.toXDRbase64 } := by
    unfold processOne
    rw [h0, h1, hc]
    simp [htype, hty]
  exact ⟨_, hP, decodeAddress_of_not_address t1 haddr,
    by simp [processEvents, List.filterMap_cons, hP]⟩

/-- C4 witness: the amended statement at the concrete event `eBadAddr`. -/
theorem address_decode_failure_amended_witness :
    ∃ ev, processOne eBadAddr = some ev ∧ ev.borrower = "" ∧
      processEvents [eBadAddr] = ev :: processEvents [] :=
  address_decode_failure_amended eBadAddr []
    (ScVal.scvSymbol "LoanRequested") (ScVal.scvSymbol "oops") "C"
    "LoanRequested" (by decide) (by decide) (by decide) (by decide)
    (by decide) (fun a h => by cases h)

/-- C5 counterexample: `eNoAmount` has a payload that fails to decode as an
i128 amount; the claim says the resulting DomainEvent then has
`amount = undefined`, but the code stores the string `"0"` instead. -/
theorem amount_decode_failure_zero_cex :
    (∀ n : Int, eNoAmount.value ≠ ScVal.scvI128 n) ∧
    (processEvents [eNoAmount]).map LoanEvent.amount = [some "0"] ∧
    (some "0" : Option String) ≠ none :=
  ⟨fun n h => by simp [eNoAmount, e1] at h, by decide, by decide⟩

/-- C5 amended: a produced event always carries
`amount = some (decodeAmount payload)`: the exact decimal string of the
i128 when the payload decodes (never a floating-point value), and the
string `"0"` — not `undefined` — when it fails to decode; the decode
failure does not fail the event. -/
theorem amount_decoding_amended (e : EventResponse) (ev : LoanEvent)
    (h : processOne e = some ev) :
    ev.amount = some (decodeAmount e.value) ∧
    (∀ n : Int, e.value = ScVal.scvI128 n → ev.amount = some (toString n)) ∧
    ((∀ n : Int, e.value ≠ ScVal.scvI128 n) → ev.amount = some "0") := by
  obtain ⟨t0, t1, cid, ty, h0, h1, hc, hty, hev⟩ := processOne_eq_some e ev h
  subst hev
  refine ⟨rfl, ?_, ?_⟩
  · intro n hn
    simp [hn, decodeAmount]
  · intro hno
    simp [decodeAmount_of_not_i128 e.value hno]

/-- C5 witness: the amended statement at the concrete event `e1`, whose
payload is the i128 value 500. -/
theorem amount_decoding_amended_witness :
    processOne e1 = some ev1 ∧ ev1.amount = some (decodeAmount e1.value) :=
  ⟨by decide, (amount_decoding_amended e1 ev1 (by decide)).1⟩

/-- C10: when the third topic is present but fails to decode as a u32, the
produced event has `loanId = some 0` (the decoder's catch returns 0); when
the third topic is absent, `loanId` is absent. -/
theorem loanId_decode_fallback (e : EventResponse) (ev : LoanEvent)
    (h : processOne e = some ev) :
    (∀ t2, e.topic.get? 2 = some t2 → (∀ n, t2 ≠ ScVal.scvU32 n) →
      ev.loanId = some 0) ∧
    (e.topic.get? 2 = none → ev.loanId = none) := by
  obtain ⟨t0, t1, cid, ty, h0, h1, hc, hty, hev⟩ := processOne_eq_some e ev h
  subst hev
  constructor
  · intro t2 h2 hnu
    show (e.topic.get? 2).map decodeLoanId = some 0
    rw [h2]
    simp [decodeLoanId_of_not_u32 t2 hnu]
  · intro h2
    show (e.topic.get? 2).map decodeLoanId = none
    rw [h2]
    rfl

/-- C10 witness: the concrete event `eBadLoanId` has a third topic that is
a symbol, not a u32; its decoded event carries `loanId = some 0`. -/
theorem loanId_decode_fallback_witness :
    processOne eBadLoanId = some evBadLoan ∧
    eBadLoanId.topic.get? 2 = some (ScVal.scvSymbol "x") ∧
    evBadLoan.loanId = some 0 :=
  ⟨by decide, by decide,
    (loanId_decode_fallback eBadLoanId evBadLoan (by decide)).1
      (ScVal.scvSymbol "x") (by decide) (fun n h => by cases h)⟩

/-! Helper lemmas about the persistence layer. -/

lemma hasEventId_append (l1 l2 : List LoanEvent) (id : String) :
    hasEventId (l1 ++ l2) id = (hasEventId l1 id || hasEventId l2 id) := by
  simp [hasEventId, List.any_append]

lemma hasEventId_mono (l1 l2 : List LoanEvent) (id : String)
    (h : hasEventId l1 id = true) : hasEventId (l1 ++ l2) id = true := by
  rw [hasEventId_append, h, Bool.true_or]

lemma hasEventId_of_mem (rows : List LoanEvent) (e : LoanEvent)
    (h : e ∈ rows) : hasEventId rows e.eventId = true := by
  simp only [hasEventId, List.any_eq_true, decide_eq_true_eq]
  exact ⟨e, h, rfl⟩

/-- The insert loop never touches `indexer_state`. -/
lemma storeLoop_indexerState (o : Oracle) (db : Db) :
    ∀ (evs : List LoanEvent) (c : Nat) (pending : List LoanEvent),
      (storeLoop o db c pending evs).db.indexerState = db.indexerState := by
  intro evs
  induction evs with
  | nil =>
    intro c pending
    rw [storeLoop]
    cases hoc : o c <;> simp
  | cons e rest ih =>
    intro c pending
    rw [storeLoop]
    cases hoc : o c with
    | true => simp
    | false =>
      cases hdup : hasEventId (db.loanEvents ++ pending) e.eventId with
      | true => simpa using ih (c + 1) pending
      | false =>
        cases hoc2 : o (c + 1) with
        | true => simp
        | false => simpa using ih (c + 2) (pending ++ [e])

/-- A failing insert loop leaves the committed database unchanged
(the transaction is rolled back). -/
lemma storeLoop_fail (o : Oracle) (db : Db) :
    ∀ (evs : List LoanEvent) (c : Nat) (pending : List LoanEvent),
      (storeLoop o db c pending evs).ok = false →
      (storeLoop o db c pending evs).db = db := by
  intro evs
  induction evs with
  | nil =>
    intro c pending h
    rw [storeLoop] at h ⊢
    cases hoc : o c with
    | true => simp
    | false => simp [hoc] at h
  | cons e rest ih =>
    intro c pending h
    rw [storeLoop] at h ⊢
    cases hoc : o c with
    | true => simp
    | false =>
      simp only [hoc, Bool.false_eq_true, if_false] at h ⊢
      cases hdup : hasEventId (db.loanEvents ++ pending) e.eventId with
      | true =>
        simp only [hdup, if_true] at h ⊢
        exact ih (c + 1) pending h
      | false =>
        simp only [hdup, Bool.false_eq_true, if_false] at h ⊢
        cases hoc2 : o (c + 1) with
        | true => simp
        | false =>
          simp only [hoc2, Bool.false_eq_true, if_false] at h ⊢
          exact ih (c + 2) (pending ++ [e]) h

/-- A successful insert loop commits exactly the committed rows plus the
pending rows plus some newly inserted rows, and every input event's
`eventId` is present afterwards. -/
lemma storeLoop_ok_mem (o : Oracle) (db : Db) :
    ∀ (evs : List LoanEvent) (c : Nat) (pending : List LoanEvent),
      (storeLoop o db c pending evs).ok = true →
      ∃ ext, (storeLoop o db c pending evs).db.loanEvents
          = (db.loanEvents ++ pending) ++ ext ∧
        ∀ e ∈ evs,
          hasEventId (storeLoop o db c pending evs).db.loanEvents e.eventId
            = true := by
  intro evs
  induction evs with
  | nil =>
    intro c pending h
    rw [storeLoop] at h ⊢
    cases hoc : o c with
    | true => simp [hoc] at h
    | false =>
      simp only [hoc, Bool.false_eq_true, if_false]
      exact ⟨[], by simp, by simp⟩
  | cons e rest ih =>
    intro c pending h
    rw [storeLoop] at h ⊢
    cases hoc : o c with
    | true => simp [hoc] at h
    | false =>
      simp only [hoc, Bool.false_eq_true, if_false] at h ⊢
      cases hdup : hasEventId (db.loanEvents ++ pending) e.eventId with
      | true =>
        simp only [hdup, if_true] at h ⊢
        obtain ⟨ext, hl, hm⟩ := ih (c + 1) pending h
        refine ⟨ext, hl, ?_⟩
        intro x hx
        rcases List.mem_cons.mp hx with rfl | hx
        · rw [hl]
          exact hasEventId_mono _ _ _ hdup
        · exact hm x hx
      | false =>
        simp only [hdup, Bool.false_eq_true, if_false] at h ⊢
        cases hoc2 : o (c + 1) with
        | true => simp [hoc2] at h
        | false =>
          simp only [hoc2, Bool.false_eq_true, if_false] at h ⊢
          obtain ⟨ext, hl, hm⟩ := ih (c + 2) (pending ++ [e]) h
          refine ⟨[e] ++ ext, ?_, ?_⟩
          · rw [hl]
            simp
          · intro x hx
            rcases List.mem_cons.mp hx with rfl | hx
            · rw [hl]
              exact hasEventId_of_mem _ _ (by simp)
            · exact hm x hx

/-- `storeEvents` never touches `indexer_state`. -/
lemma storeEvents_indexerState (o : Oracle) (c : Nat) (db : Db)
    (evs : List LoanEvent) :
    (storeEvents o c db evs).db.indexerState = db.indexerState := by
  rw [storeEvents]
  cases hemp : evs.isEmpty with
  | true => simp
  | false =>
    cases hoc : o c with
    | true => simp
    | false => simpa using storeLoop_indexerState o db evs (c + 1) []

/-- A failing `storeEvents` leaves the committed database unchanged. -/
lemma storeEvents_fail (o : Oracle) (c : Nat) (db : Db)
    (evs : List LoanEvent) (h : (storeEvents o c db evs).ok = false) :
    (storeEvents o c db evs).db = db := by
  rw [storeEvents] at h ⊢
  cases hemp : evs.isEmpty with
  | true => simp [hemp] at h
  | false =>
    simp only [hemp, Bool.false_eq_true, if_false] at h ⊢
    cases hoc : o c with
    | true => simp
    | false =>
      simp only [hoc, Bool.false_eq_true, if_false] at h ⊢
      exact storeLoop_fail o db evs (c + 1) [] h

/-- After a successful `storeEvents`, every input event's `eventId` is
present in `loan_events`. -/
lemma storeEvents_ok_mem (o : Oracle) (c : Nat) (db : Db)
    (evs : List LoanEvent) (h : (storeEvents o c db evs).ok = true) :
    ∀ e ∈ evs,
      hasEventId (storeEvents o c db evs).db.loanEvents e.eventId = true := by
  rw [storeEvents] at h ⊢
  cases hemp : evs.isEmpty with
  | true =>
    intro e he
    rw [List.isEmpty_iff] at hemp
    subst hemp
    simp at he
  | false =>
    simp only [hemp, Bool.false_eq_true, if_false] at h ⊢
    cases hoc : o c with
    | true => simp [hoc] at h
    | false =>
      simp only [hoc, Bool.false_eq_true, if_false] at h ⊢
      obtain ⟨ext, hl, hm⟩ := storeLoop_ok_mem o db evs (c + 1) [] h
      exact hm

/-- `updateIndexerState` never touches `loan_events`. -/
lemma updateIndexerState_loanEvents (o : Oracle) (c : Nat) (db : Db)
    (ledger : Nat) (cursor : String) :
    (updateIndexerState o c db ledger cursor).db.loanEvents
      = db.loanEvents := by
  rw [updateIndexerState]
  cases hoc : o c with
  | true => simp
  | false =>
    simp only [Bool.false_eq_true, if_false]
    cases db.indexerState <;> rfl

/-- A failing `updateIndexerState` leaves the database unchanged. -/
lemma updateIndexerState_fail (o : Oracle) (c : Nat) (db : Db)
    (ledger : Nat) (cursor : String)
    (h : (updateIndexerState o c db ledger cursor).ok = false) :
    (updateIndexerState o c db ledger cursor).db = db := by
  rw [updateIndexerState] at h ⊢
  cases hoc : o c with
  | true => simp
  | false =>
    simp only [hoc, Bool.false_eq_true, if_false] at h ⊢
    cases hst : db.indexerState with
    | none => simp [hst] at h
    | some st => simp [hst] at h

/-- C1 counterexample: on a cycle whose event-insert transaction commits
but whose subsequent `indexer_state` `UPDATE` fails (query number 5 on the
one-event batch), the cycle fails, yet the batch's event IS durably stored
— refuting "if any step of persistence fails, no event of the batch is
durably stored".  The two statements are not one transaction. -/
theorem progress_update_separate_cex :
    (indexEvents failAtUpdate false ⟨[e1], some "cur"⟩ cfg0 db0).ok = false ∧
    (indexEvents failAtUpdate false ⟨[e1], some "cur"⟩ cfg0 db0).db.loanEvents
      = [ev1] ∧
    (indexEvents failAtUpdate false ⟨[e1], some "cur"⟩ cfg0 db0).db.indexerState
      = db0.indexerState :=
  ⟨by decide, by decide, by decide⟩

/-- C1 amended: the event inserts of a batch are one atomic transaction,
while the `IndexerProgress` update is a separate later statement.  For
every failure pattern: a failed cycle leaves `IndexerProgress` unchanged;
whenever `IndexerProgress` has changed, every decoded event of the batch is
durably stored; and whenever any event has been stored, all decoded events
of the batch have been (no partial insert).  What fails is only the claim's
converse direction: after a commit, a failing progress update leaves the
events durably stored. -/
theorem indexEvents_atomicity_amended (o : Oracle) (ff : Bool)
    (src : SourceResult) (cfg : IndexerConfig) (db : Db) :
    ((indexEvents o ff src cfg db).ok = false →
      (indexEvents o ff src cfg db).db.indexerState = db.indexerState) ∧
    ((indexEvents o ff src cfg db).db.indexerState ≠ db.indexerState →
      ∀ e ∈ processEvents src.events,
        hasEventId (indexEvents o ff src cfg db).db.loanEvents e.eventId
          = true) ∧
    ((indexEvents o ff src cfg db).db.loanEvents ≠ db.loanEvents →
      ∀ e ∈ processEvents src.events,
        hasEventId (indexEvents o ff src cfg db).db.loanEvents e.eventId
          = true) := by
  rw [indexEvents]
  cases h0 : o 0 with
  | true => simp [getIndexerState, h0]
  | false =>
    simp only [getIndexerState, h0, Bool.false_eq_true, if_false]
    cases ff with
    | true => simp
    | false =>
      simp only [Bool.false_eq_true, if_false]
      cases hemp : src.events.isEmpty with
      | true => simp [hemp]
      | false =>
        simp only [hemp, Bool.false_eq_true, if_false]
        cases hs1 : (storeEvents o 1 db (processEvents src.events)).ok with
        | false =>
          simp only [hs1, Bool.false_eq_true, if_false]
          have hdb := storeEvents_fail o 1 db (processEvents src.events) hs1
          refine ⟨fun _ => storeEvents_indexerState o 1 db _,
            fun hne => absurd (storeEvents_indexerState o 1 db _) hne,
            fun hne => absurd (congrArg Db.loanEvents hdb) hne⟩
        | true =>
          simp only [hs1, if_true]
          have hm := storeEvents_ok_mem o 1 db (processEvents src.events) hs1
          cases hlast : src.events.getLast? with
          | none =>
            exact ⟨by simp, fun _ => hm, fun _ => hm⟩
          | some last =>
            have hup := updateIndexerState_loanEvents o
              (storeEvents o 1 db (processEvents src.events)).ctr
              (storeEvents o 1 db (processEvents src.events)).db
              last.ledger (src.cursor.getD "")
            refine ⟨fun hok => ?_, fun _ => ?_, fun _ => ?_⟩
            · have h2 := updateIndexerState_fail o
                (storeEvents o 1 db (processEvents src.events)).ctr
                (storeEvents o 1 db (processEvents src.events)).db
                last.ledger (src.cursor.getD "") hok
              show (updateIndexerState o _ _ _ _).db.indexerState
                = db.indexerState
              rw [h2]
              exact storeEvents_indexerState o 1 db _
            · intro e he
              show hasEventId (updateIndexerState o _ _ _ _).db.loanEvents
                e.eventId = true
              rw [hup]
              exact hm e he
            · intro e he
              show hasEventId (updateIndexerState o _ _ _ _).db.loanEvents
                e.eventId = true
              rw [hup]
              exact hm e he

/-- C1 witness: the amended atomicity statement applied to the concrete
failing-update run. -/
theorem indexEvents_atomicity_amended_witness :
    (indexEvents failAtUpdate false ⟨[e1], some "cur"⟩ cfg0 db0).ok = false ∧
    (indexEvents failAtUpdate false ⟨[e1], some "cur"⟩ cfg0 db0).db.indexerState
      = db0.indexerState :=
  ⟨by decide,
    (indexEvents_atomicity_amended failAtUpdate false ⟨[e1], some "cur"⟩
      cfg0 db0).1 (by decide)⟩

/-- C2 (code bug): `getIndexerState` returns the raw pg row, whose keys
are the snake_case column names, but `indexEvents` reads
`state.lastIndexedLedger` — a camelCase key the row does not have — so on
the migration's fresh database (state row present with ledger 0) the
request's `startLedger` is `undefined + 1 = NaN`, not the stored ledger
plus one.  Only when no state row exists does the camelCase default
literal make the request start at `0 + 1` as the claim says.  Batch-size
bound and contract filter do hold in both cases. -/
theorem request_start_nan_bug :
    (indexEvents noFail false ⟨[e1], some "cur"⟩ cfg0 db0).req = some
      { startLedger := JsNum.nan
        contractIds := [cfg0.contractId]
        limit := cfg0.batchSize } ∧
    (indexEvents noFail false ⟨[e1], some "cur"⟩ cfg0 dbNoRow).req = some
      { startLedger := JsNum.num (0 + 1)
        contractIds := [cfg0.contractId]
        limit := cfg0.batchSize } :=
  ⟨by decide, by decide⟩

/-- The decoder preserves the raw event's ledger number. -/
lemma processOne_ledger (e : EventResponse) (ev : LoanEvent)
    (h : processOne e = some ev) : ev.ledger = e.ledger := by
  obtain ⟨t0, t1, cid, ty, h0, h1, hc, hty, hev⟩ := processOne_eq_some e ev h
  rw [hev]

/-- Every decoded event's ledger is the ledger of some raw event of the
batch. -/
lemma processEvents_ledger (l : List EventResponse) (ev : LoanEvent)
    (h : ev ∈ processEvents l) : ∃ e ∈ l, ev.ledger = e.ledger := by
  obtain ⟨e, he, hpe⟩ := List.mem_filterMap.mp h
  exact ⟨e, he, processOne_ledger e ev hpe⟩

/-- C3 counterexample: a successful cycle over the non-empty raw batch
`[eUnknown]` in which the decoder skips every event persists zero events,
yet `IndexerProgress` is advanced to the skipped raw event's ledger — the
claim says progress is left unchanged when a cycle persists zero events. -/
theorem progress_advances_on_skipped_batch_cex :
    (indexEvents noFail false ⟨[eUnknown], some "cur"⟩ cfg0 db0).ok = true ∧
    processEvents [eUnknown] = [] ∧
    (indexEvents noFail false ⟨[eUnknown], some "cur"⟩ cfg0 db0).db.loanEvents
      = [] ∧
    (indexEvents noFail false ⟨[eUnknown], some "cur"⟩ cfg0
        db0).db.indexerState ≠ db0.indexerState ∧
    (indexEvents noFail false ⟨[eUnknown], some "cur"⟩ cfg0
        db0).db.indexerState = some ⟨103, some "cur"⟩ :=
  ⟨by decide, by decide, by decide, by decide, by decide⟩

/-- C3 amended: after every successful cycle on a non-empty raw batch (with
the singleton progress row present), `lastLedger` is set to the ledger of
the LAST RAW event of the batch — whether or not any event was persisted —
together with the source cursor.  When the batch is ordered so that the
last raw ledger is maximal, every persisted event's ledger is bounded by
the new `lastLedger`.  No cross-cycle monotonicity is asserted: the
request's start ledger is `NaN` whenever the progress row exists, so the
source is unconstrained relative to the stored ledger. -/
theorem indexEvents_lastLedger_amended (o : Oracle) (ff : Bool)
    (src : SourceResult) (cfg : IndexerConfig) (db : Db)
    (st : IndexerStateRow) (last : EventResponse)
    (hst : db.indexerState = some st)
    (hlast : src.events.getLast? = some last)
    (hok : (indexEvents o ff src cfg db).ok = true) :
    (indexEvents o ff src cfg db).db.indexerState
      = some ⟨last.ledger, some (src.cursor.getD "")⟩ ∧
    ((∀ e ∈ src.events, e.ledger ≤ last.ledger) →
      ∀ ev ∈ processEvents src.events, ev.ledger ≤ last.ledger) := by
  have hemp : src.events.isEmpty = false := by
    cases hE : src.events.isEmpty with
    | false => rfl
    | true =>
      rw [List.isEmpty_iff] at hE
      rw [hE] at hlast
      simp at hlast
  rw [indexEvents] at hok ⊢
  cases h0 : o 0 with
  | true => simp [getIndexerState, h0] at hok
  | false =>
    simp only [getIndexerState, h0, Bool.false_eq_true, if_false] at hok ⊢
    cases ff with
    | true => simp at hok
    | false =>
      simp only [Bool.false_eq_true, if_false] at hok ⊢
      simp only [hemp, Bool.false_eq_true, if_false] at hok ⊢
      cases hs1 : (storeEvents o 1 db (processEvents src.events)).ok with
      | false => simp [hs1] at hok
      | true =>
        simp only [hs1, if_true] at hok ⊢
        rw [hlast] at hok ⊢
        cases hu : o (storeEvents o 1 db (processEvents src.events)).ctr with
        | true => simp [updateIndexerState, hu] at hok
        | false =>
          have hsidx := storeEvents_indexerState o 1 db
            (processEvents src.events)
          rw [hst] at hsidx
          refine ⟨?_, ?_⟩
          · show (updateIndexerState o _ _ _ _).db.indexerState = _
            rw [updateIndexerState]
            simp only [hu, Bool.false_eq_true, if_false, hsidx]
          · intro hbound ev hev
            obtain ⟨e, he, hle⟩ := processEvents_ledger src.events ev hev
            rw [hle]
            exact hbound e he

/-- C3 witness: the amended statement on a concrete successful cycle whose
batch holds one decodable event at ledger 100. -/
theorem indexEvents_lastLedger_amended_witness :
    (indexEvents noFail false ⟨[e1], some "cur"⟩ cfg0 db0).ok = true ∧
    (indexEvents noFail false ⟨[e1], some "cur"⟩ cfg0 db0).db.indexerState
      = some ⟨e1.ledger, some "cur"⟩ :=
  ⟨by decide,
    (indexEvents_lastLedger_amended noFail false ⟨[e1], some "cur"⟩ cfg0 db0
      ⟨0, none⟩ e1 (by decide) (by decide) (by decide)).1⟩

lemma hasEventId_eq_false_of_count (rows : List LoanEvent) (id : String)
    (h : countEventId rows id = 0) : hasEventId rows id = false := by
  simp only [countEventId, List.countP_eq_zero] at h
  simp only [hasEventId, List.any_eq_false]
  exact h

lemma hasEventId_eq_true_of_count_one (rows : List LoanEvent) (id : String)
    (h : countEventId rows id = 1) : hasEventId rows id = true := by
  simp only [hasEventId, List.any_eq_true]
  have : 0 < countEventId rows id := by omega
  simpa only [countEventId, List.countP_pos_iff] using this

lemma countEventId_append_self (rows : List LoanEvent) (e : LoanEvent) :
    countEventId (rows ++ [e]) e.eventId
      = countEventId rows e.eventId + 1 := by
  simp [countEventId, List.countP_append, List.countP_cons]

/-- A single-event `storeEvents` whose `event_id` is already present is a
successful no-op. -/
lemma storeEvents_dup_noop (db : Db) (e : LoanEvent) (c : Nat)
    (hdup : hasEventId db.loanEvents e.eventId = true) :
    storeEvents noFail c db [e] = ⟨db, c + 3, true⟩ := by
  simp [storeEvents, storeLoop, noFail, hdup]

/-- A single-event `storeEvents` whose `event_id` is absent appends one
row. -/
lemma storeEvents_new_insert (db : Db) (e : LoanEvent) (c : Nat)
    (hnew : hasEventId db.loanEvents e.eventId = false) :
    storeEvents noFail c db [e]
      = ⟨{ db with loanEvents := db.loanEvents ++ [e] }, c + 4, true⟩ := by
  simp [storeEvents, storeLoop, noFail, hnew]

/-- C6: insertion is idempotent on `eventId`.  Inserting an event whose
`event_id` already has a row is a successful no-op; after storing the same
event any positive number of times starting from a store with no row for
that id, exactly one row with that id exists; and the migration declares a
hard uniqueness constraint on the `event_id` column of `loan_events`. -/
theorem storeEvents_idempotent :
    (∀ (db : Db) (e : LoanEvent) (c : Nat),
      hasEventId db.loanEvents e.eventId = true →
      storeEvents noFail c db [e] = ⟨db, c + 3, true⟩) ∧
    (∀ (db : Db) (e : LoanEvent) (n : Nat),
      countEventId db.loanEvents e.eventId = 0 →
      countEventId (storeNTimes e db (n + 1)).loanEvents e.eventId = 1) ∧
    (∃ col ∈ loanEventsColumns, col.name = "event_id" ∧ col.unique = true) := by
  refine ⟨storeEvents_dup_noop, ?_, by decide⟩
  intro db e n h0
  induction n with
  | zero =>
    show countEventId (storeEvents noFail 0 db [e]).db.loanEvents e.eventId = 1
    rw [storeEvents_new_insert db e 0 (hasEventId_eq_false_of_count _ _ h0)]
    simp only []
    rw [countEventId_append_self, h0]
  | succ n ih =>
    show countEventId
      (storeEvents noFail 0 (storeNTimes e db (n + 1)) [e]).db.loanEvents
        e.eventId = 1
    rw [storeEvents_dup_noop (storeNTimes e db (n + 1)) e 0
      (hasEventId_eq_true_of_count_one _ _ ih)]
    exact ih

/-- C6 witness: storing `ev1` three times into the fresh store leaves
exactly one row with its id. -/
theorem storeEvents_idempotent_witness :
    countEventId db0.loanEvents ev1.eventId = 0 ∧
    countEventId (storeNTimes ev1 db0 3).loanEvents ev1.eventId = 1 :=
  ⟨by decide, storeEvents_idempotent.2.1 db0 ev1 2 (by decide)⟩

/-- C7: after every in-flight cycle returns — successful or failed alike —
`poll` re-arms the timer with the configured fixed delay and leaves
`isRunning` untouched; and no transition other than an explicit `stop()`
ever turns `isRunning` off. -/
theorem poll_always_reschedules (cfg : IndexerConfig) (s : CtrlState)
    (f : Bool) :
    (s.inCycle = true →
      (ctrlStep cfg s (CtrlEvent.cycleReturn f)).timer
        = some cfg.pollIntervalMs ∧
      (ctrlStep cfg s (CtrlEvent.cycleReturn f)).isRunning = s.isRunning) ∧
    (∀ ev, (ctrlStep cfg s ev).isRunning = false →
      s.isRunning = false ∨ ev = CtrlEvent.stopCall) := by
  constructor
  · intro h
    simp [ctrlStep, h]
  · intro ev hev
    cases ev with
    | startCall =>
      cases hr : s.isRunning with
      | false => exact Or.inl rfl
      | true =>
        simp [ctrlStep, hr] at hev
    | stopCall => exact Or.inr rfl
    | timerFire =>
      cases hr : s.isRunning with
      | false => exact Or.inl rfl
      | true =>
        exfalso
        cases ht : s.timer with
        | none =>
          simp [ctrlStep, ht, hr] at hev
        | some d =>
          simp [ctrlStep, ht, pollEntry, hr] at hev
    | cycleReturn f2 =>
      cases hr : s.isRunning with
      | false => exact Or.inl rfl
      | true =>
        exfalso
        by_cases hic : s.inCycle = true
        · simp [ctrlStep, hic, hr] at hev
        · simp only [ctrlStep, if_neg hic] at hev
          rw [hr] at hev
          simp at hev

/-- C7 witness: a concrete in-flight cycle returning with a caught error
re-arms the 30000 ms timer and stays running. -/
theorem poll_always_reschedules_witness :
    (⟨true, none, true, 1⟩ : CtrlState).inCycle = true ∧
    (ctrlStep cfg0 ⟨true, none, true, 1⟩ (CtrlEvent.cycleReturn true)).timer
      = some cfg0.pollIntervalMs ∧
    (ctrlStep cfg0 ⟨true, none, true, 1⟩
      (CtrlEvent.cycleReturn true)).isRunning = true :=
  ⟨rfl, ((poll_always_reschedules cfg0 ⟨true, none, true, 1⟩ true).1 rfl).1,
    ((poll_always_reschedules cfg0 ⟨true, none, true, 1⟩ true).1 rfl).2⟩

/-- C8 counterexample: `start(); stop()` while the first cycle is in
flight; when the cycle then returns, a further cycle IS scheduled (the
timer is re-armed to 30000 ms after `stop()`), refuting "no further cycle
is scheduled afterward".  The in-flight cycle did complete, and the
controller is stopped. -/
theorem stop_midcycle_still_schedules_cex :
    (runCtrl cfg0 [CtrlEvent.startCall, CtrlEvent.stopCall,
      CtrlEvent.cycleReturn false]).isRunning = false ∧
    (runCtrl cfg0 [CtrlEvent.startCall, CtrlEvent.stopCall,
      CtrlEvent.cycleReturn false]).inCycle = false ∧
    (runCtrl cfg0 [CtrlEvent.startCall, CtrlEvent.stopCall,
      CtrlEvent.cycleReturn false]).timer = some 30000 :=
  ⟨by decide, by decide, by decide⟩

/-- C8 amended: `start()` while running is a no-op; `stop()` cancels the
pending timer and does not interrupt an in-flight cycle; an in-flight
cycle returning after `stop()` still completes (and re-arms one timer);
but when that timer fires on a stopped controller, no cycle is executed
and no further timer is armed — so a timer may be scheduled after
`stop()`, yet no further cycle ever executes. -/
theorem stop_semantics_amended (cfg : IndexerConfig) (s : CtrlState)
    (f : Bool) :
    (s.isRunning = true → ctrlStep cfg s CtrlEvent.startCall = s) ∧
    ((ctrlStep cfg s CtrlEvent.stopCall).timer = none ∧
      (ctrlStep cfg s CtrlEvent.stopCall).isRunning = false ∧
      (ctrlStep cfg s CtrlEvent.stopCall).inCycle = s.inCycle) ∧
    (s.isRunning = false →
      (ctrlStep cfg s CtrlEvent.timerFire).cyclesExecuted
        = s.cyclesExecuted ∧
      (ctrlStep cfg s CtrlEvent.timerFire).inCycle = s.inCycle ∧
      (ctrlStep cfg s CtrlEvent.timerFire).timer = none) ∧
    (s.inCycle = true →
      ctrlStep cfg s (CtrlEvent.cycleReturn f)
        = { s with inCycle := false, timer := some cfg.pollIntervalMs }) := by
  refine ⟨fun h => by simp [ctrlStep, h], by simp [ctrlStep], fun h => ?_,
    fun h => by simp [ctrlStep, h]⟩
  cases ht : s.timer with
  | none => simp [ctrlStep, ht]
  | some d => simp [ctrlStep, ht, pollEntry, h]

/-- C8 witness: the amended statement on a stopped controller whose
leftover timer fires: nothing executes and the chain ends. -/
theorem stop_semantics_amended_witness :
    (⟨false, some 30000, false, 1⟩ : CtrlState).isRunning = false ∧
    (ctrlStep cfg0 ⟨false, some 30000, false, 1⟩
      CtrlEvent.timerFire).cyclesExecuted = 1 ∧
    (ctrlStep cfg0 ⟨false, some 30000, false, 1⟩
      CtrlEvent.timerFire).timer = none :=
  ⟨rfl,
    ((stop_semantics_amended cfg0 ⟨false, some 30000, false, 1⟩
      false).2.2.1 rfl).1,
    ((stop_semantics_amended cfg0 ⟨false, some 30000, false, 1⟩
      false).2.2.1 rfl).2.2⟩

/-- C9: a cycle whose fetch succeeds with an empty batch (and whose state
read succeeds) ends with no side effects: the database — events and
progress alike — is unchanged and the cycle is not an error; and the
returning cycle still re-arms the timer for the next cycle. -/
theorem empty_batch_no_side_effects (o : Oracle) (cfg : IndexerConfig)
    (db : Db) (cur : Option String) (s : CtrlState) (f : Bool)
    (h0 : o 0 = false) :
    (indexEvents o false ⟨[], cur⟩ cfg db).db = db ∧
    (indexEvents o false ⟨[], cur⟩ cfg db).ok = true ∧
    (s.inCycle = true →
      (ctrlStep cfg s (CtrlEvent.cycleReturn f)).timer
        = some cfg.pollIntervalMs) := by
  refine ⟨?_, ?_, fun h => by simp [ctrlStep, h]⟩
  · rw [indexEvents]
    simp [getIndexerState, h0]
  · rw [indexEvents]
    simp [getIndexerState, h0]

/-- C9 witness: the concrete empty-batch cycle on the fresh database. -/
theorem empty_batch_no_side_effects_witness :
    noFail 0 = false ∧
    (indexEvents noFail false ⟨[], none⟩ cfg0 db0).db = db0 ∧
    (indexEvents noFail false ⟨[], none⟩ cfg0 db0).ok = true :=
  ⟨rfl,
    (empty_batch_no_side_effects noFail cfg0 db0 none ⟨true, none, true, 0⟩
      false rfl).1,
    (empty_batch_no_side_effects noFail cfg0 db0 none ⟨true, none, true, 0⟩
      false rfl).2.1⟩

end RemitLend
